import Mathlib

/-!
# Discovery-based participant admission control (shapes publisher / subscriber)

A shallow embedding of `src/c++/shapes_publisher.cxx` and
`src/c++/shapes_subscriber.cxx`:

* the object representation of a `std::size_t` (the fingerprint) as bytes,
* the three built-in-topic listeners and the effects they produce,
* the start-up sequence of both process roles as a trace of middleware calls,
* the subscriber's wait/dispatch loop and both `main` functions.

Machine integers are natural numbers reduced modulo the width of their type.
-/

set_option autoImplicit false

/-! ## Platform and object representation -/

/-- An octet of a `dds::core::ByteSeq` (`uint8_t`). -/
abbrev Byte := Fin 256

/-- The data model of the target: it fixes `sizeof(std::size_t)`. -/
inductive DataModel where
  | ILP32
  | LP64
  deriving DecidableEq, Repr

/-- The target platform: data model and byte order. -/
structure Platform where
  model : DataModel
  big_endian : Bool
  deriving DecidableEq, Repr

/-- The value of `sizeof(std::size_t)` in bytes. -/
def Platform.sizeof_size_t (P : Platform) : Nat :=
  match P.model with
  | DataModel.ILP32 => 4
  | DataModel.LP64 => 8

/-- Number of values of a `std::size_t`. -/
def Platform.size_t_range (P : Platform) : Nat := 256 ^ P.sizeof_size_t

/-- The `w` low-order octets of `n`, least significant first. -/
def bytes_le : Nat → Nat → List Byte
  | 0, _ => []
  | w + 1, n => ⟨n % 256, Nat.mod_lt n (by decide)⟩ :: bytes_le w (n / 256)

/-- The number whose octets, least significant first, are `bs`. -/
def value_le : List Byte → Nat
  | [] => 0
  | b :: bs => b.val + 256 * value_le bs

/-- Object representation of a `std::size_t`: the bytes at
`(uint8_t*)&hash .. (uint8_t*)&hash + sizeof(hash)`. -/
def object_bytes (P : Platform) (n : Nat) : List Byte :=
  if P.big_endian then (bytes_le P.sizeof_size_t n).reverse else bytes_le P.sizeof_size_t n

/-- Value of a `std::size_t` whose object representation is `bs`. -/
def object_value (P : Platform) (bs : List Byte) : Nat :=
  if P.big_endian then value_le bs.reverse else value_le bs

/-- The call `std::hash<string>{}(s)`: an implementation-defined function of the
string, with a `std::size_t` result. -/
def std_hash (P : Platform) (hash_fn : String → Nat) (s : String) : Nat :=
  hash_fn s % P.size_t_range

/-! ## Discovery samples and listener effects -/

/-- The instance state reported by `sample.info().state().instance_state()`. -/
inductive InstanceState where
  | alive
  | not_alive_disposed
  | not_alive_no_writers
  deriving DecidableEq, Repr

/-- The part of `dds::sub::SampleInfo` the listeners and handlers read. -/
structure SampleInfo where
  valid : Bool
  instance_handle : Nat
  instance_state : InstanceState
  deriving DecidableEq, Repr

/-- A loaned sample: its info and its data. -/
structure Sample (T : Type) where
  info : SampleInfo
  data : T

/-- A `dds::topic::BuiltinTopicKey`; the listeners print `value()[0..2]`. -/
structure BuiltinTopicKey where
  v0 : Nat
  v1 : Nat
  v2 : Nat
  deriving DecidableEq, Repr

/-- Fields of `dds::topic::ParticipantBuiltinTopicData` read by the listener. -/
structure ParticipantBuiltinTopicData where
  key : BuiltinTopicKey
  user_data : List Byte
  deriving DecidableEq, Repr

/-- Fields of `SubscriptionBuiltinTopicData` / `PublicationBuiltinTopicData`
read by the endpoint listeners. -/
structure EndpointBuiltinTopicData where
  participant_key : BuiltinTopicKey
  key : BuiltinTopicKey
  deriving DecidableEq, Repr

/-- What a listener does to the outside world: a block written to `cout`
(recorded by the values it prints) or a `dds::domain::ignore` call. -/
inductive Effect where
  | found_participant (key : BuiltinTopicKey) (user_hash : Nat) (instance_handle : Nat)
  | secrets_do_not_match
  | ignore (instance_handle : Nat)
  | found_subscriber (participant_key key : BuiltinTopicKey) (instance_handle : Nat)
  | found_publisher (participant_key key : BuiltinTopicKey) (instance_handle : Nat)
  deriving DecidableEq, Repr

/-- The handles passed to `dds::domain::ignore`, in call order. -/
def ignore_commands : List Effect → List Nat
  | [] => []
  | Effect.ignore h :: es => h :: ignore_commands es
  | _ :: es => ignore_commands es

namespace Publisher

/-- The constant `shared_secret` of shapes_publisher.cxx. -/
def shared_secret : String :=
  "Now is the time for all good men to come to the aid of the party"

/-- The constant `secret_hash` of shapes_publisher.cxx. -/
def secret_hash (P : Platform) (hash_fn : String → Nat) : Nat :=
  std_hash P hash_fn shared_secret

/-- Lines 56-59 of `ParticipantListener::on_data_available`: `user_hash` starts
at 0 and is overwritten with the user data only when the sizes agree. -/
def read_user_hash (P : Platform) (user_data : List Byte) : Nat :=
  if user_data.length = P.sizeof_size_t then object_value P user_data else 0

/-- Body of the loop of `ParticipantListener::on_data_available` for one sample;
`local_hash` is the value of `secret_hash`. -/
def ParticipantListener.process_sample (P : Platform) (local_hash : Nat)
    (sample : Sample ParticipantBuiltinTopicData) : List Effect :=
  if !sample.info.valid then []
  else
    let user_hash := read_user_hash P sample.data.user_data
    let found := Effect.found_participant sample.data.key user_hash sample.info.instance_handle
    if user_hash ≠ local_hash then
      [found, Effect.secrets_do_not_match, Effect.ignore sample.info.instance_handle]
    else [found]

/-- The member-discovery listener, run on the taken batch of new-instance samples. -/
def ParticipantListener.on_data_available (P : Platform) (local_hash : Nat) :
    List (Sample ParticipantBuiltinTopicData) → List Effect
  | [] => []
  | sample :: rest =>
    ParticipantListener.process_sample P local_hash sample ++
      ParticipantListener.on_data_available P local_hash rest

/-- The subscriber-endpoint listener of shapes_publisher.cxx. -/
def SubscriberListener.on_data_available :
    List (Sample EndpointBuiltinTopicData) → List Effect
  | [] => []
  | sample :: rest =>
    (if !sample.info.valid then []
     else [Effect.found_subscriber sample.data.participant_key sample.data.key
             sample.info.instance_handle]) ++
      SubscriberListener.on_data_available rest

end Publisher

/-! ## Middleware calls, environment and program output -/

/-- The participant QoS as far as the programs read or write it: the `UserData`
policy and the `participant_user_data_max_length` resource limit (as read into
`unsigned int max_len`). -/
structure ParticipantQos where
  user_data : List Byte
  participant_user_data_max_length : Nat
  deriving DecidableEq, Repr

/-- The built-in discovery topics. -/
inductive BuiltinTopic where
  | participant
  | subscription
  | publication
  deriving DecidableEq, Repr

/-- A call into the middleware, as it appears in the trace of a run. -/
inductive DdsCall where
  | participant_qos
  | create_participant (domain_id : Nat) (qos : ParticipantQos)
  | builtin_subscriber
  | find_reader (topic : BuiltinTopic)
  | set_listener (topic : BuiltinTopic)
  | enable
  | create_topic (name : String)
  | create_publisher
  | create_subscriber
  | create_datawriter
  | create_datareader
  | create_read_condition
  | attach_condition
  | dispatch
  | write
  | sleep
  | finalize_participant_factory
  deriving DecidableEq, Repr

/-- What is written to `cout` / `cerr` outside the listeners. -/
inductive Output (T : Type) where
  | text (s : String)
  | data (d : T)
  | instance_state_changed (s : InstanceState)
  | writing (samples_written : Nat)
  deriving DecidableEq, Repr

/-- Everything outside the program that a run depends on: the default
participant QoS (USER_QOS_PROFILES.xml), which middleware call throws (by its
position in the trace), the value of `application::shutdown_requested` at each
evaluation of a loop condition, and what each `waitset.dispatch` finds: nothing
(time-out, the handler does not run) or a batch taken by `process_data`. -/
structure Env (T : Type) where
  default_qos : ParticipantQos
  throws_at : Nat → Bool
  shutdown_requested : Nat → Bool
  wakeup : Nat → Option (List (Sample T))

/-- How a run of `run_*_application` ends; `running` is a loop still going when
the fuel is spent. -/
inductive Outcome where
  | returned
  | threw
  | running
  deriving DecidableEq, Repr

/-- The observable result of `run_*_application`. -/
structure RunResult (T : Type) where
  calls : List DdsCall
  out : List (Output T)
  outcome : Outcome

/-- Straight-line middleware calls: each is attempted in turn, the first one that
throws ends the sequence. Returns the calls attempted (the throwing one
included) and whether one threw. -/
def perform (throws_at : Nat → Bool) : Nat → List DdsCall → List DdsCall × Bool
  | _, [] => ([], false)
  | n, c :: cs =>
    if throws_at n then ([c], true)
    else
      let r := perform throws_at (n + 1) cs
      (c :: r.1, r.2)

/-- The value of `application::ParseReturn`. -/
inductive ParseReturn where
  | ok
  | exit
  | failure
  deriving DecidableEq, Repr

/-- The parsed command line (application.hpp), as far as `main` reads it. -/
structure ApplicationArguments where
  parse_result : ParseReturn
  domain_id : Nat
  sample_count : Nat
  deriving DecidableEq, Repr

/-- The value of `EXIT_SUCCESS`. -/
def EXIT_SUCCESS : Nat := 0

/-- The value of `EXIT_FAILURE`. -/
def EXIT_FAILURE : Nat := 1

/-- The observable result of `main`; `exit_code` is `none` while the loop is
still going when the fuel is spent. -/
structure MainResult (T : Type) where
  exit_code : Option Nat
  calls : List DdsCall
  out : List (Output T)

/-- Number of values of an `unsigned int`. -/
def UINT_RANGE : Nat := 2 ^ 32

namespace Subscriber

/-- The constant `shared_secret` of shapes_subscriber.cxx. -/
def shared_secret : String :=
  "Now is the time for all good men to come to the aid of the party"

/-- The publisher-endpoint listener of shapes_subscriber.cxx. -/
def PublisherListener.on_data_available :
    List (Sample EndpointBuiltinTopicData) → List Effect
  | [] => []
  | sample :: rest =>
    (if !sample.info.valid then []
     else [Effect.found_publisher sample.data.participant_key sample.data.key
             sample.info.instance_handle]) ++
      PublisherListener.on_data_available rest

/-- The function `process_data`: counts and prints the valid samples of the
taken batch. Returns `count` and what was printed. -/
def process_data {T : Type} : List (Sample T) → Nat × List (Output T)
  | [] => (0, [])
  | sample :: rest =>
    let r := process_data rest
    if sample.info.valid then (r.1 + 1, Output.data sample.data :: r.2)
    else (r.1, Output.instance_state_changed sample.info.instance_state :: r.2)

/-- Lines 101-112 of `run_subscriber_application`: the check of the user-data
length and the construction of the `UserData` policy. `Except.error` is the
branch that prints the message and returns. The secret is ASCII, so
`shared_secret.size()` is its number of characters. -/
def user_data_setup (P : Platform) (hash_fn : String → Nat)
    (participant_qos : ParticipantQos) : Except String ParticipantQos :=
  let max_len := participant_qos.participant_user_data_max_length
  if shared_secret.length > max_len then
    Except.error "error, participant user_data exceeds resource limits"
  else
    let hash := std_hash P hash_fn shared_secret
    let bytes := object_bytes P hash
    Except.ok { participant_qos with user_data := bytes }

/-- One `waitset.dispatch`: on a time-out the handler of the read condition does
not run; otherwise it runs `process_data` on the batch. Returns what the handler
adds to `samples_read` and what it prints. -/
def handle_wakeup {T : Type} (w : Option (List (Sample T))) : Nat × List (Output T) :=
  match w with
  | none => (0, [])
  | some batch => process_data batch

/-- What the loop of `run_subscriber_application` did. -/
structure LoopRun (T : Type) where
  dispatched : List Nat
  out : List (Output T)
  samples_read : Nat
  exited_at : Option Nat

/-- The loop `while (!shutdown_requested && samples_read < sample_count)
waitset.dispatch(1s)`, started at its `i`-th evaluation of the condition.
`dispatched` lists the evaluations that were followed by a dispatch, and
`exited_at` is the evaluation at which the condition was false. The handler adds
the result of `process_data` to the `unsigned int samples_read`. -/
def dispatch_loop {T : Type} (sample_count : Nat) (shutdown_requested : Nat → Bool)
    (wakeup : Nat → Option (List (Sample T))) : Nat → Nat → Nat → LoopRun T
  | 0, _, samples_read => ⟨[], [], samples_read, none⟩
  | fuel + 1, i, samples_read =>
    if !shutdown_requested i && decide (samples_read < sample_count) then
      let handled := handle_wakeup (wakeup i)
      let r := dispatch_loop sample_count shutdown_requested wakeup fuel (i + 1)
        ((samples_read + handled.1) % UINT_RANGE)
      ⟨i :: r.dispatched, handled.2 ++ r.out, r.samples_read, r.exited_at⟩
    else ⟨[], [], samples_read, some i⟩

/-- Lines 114-153 of `run_subscriber_application`: the middleware calls between
the user-data set-up and the loop, in program order. -/
def startup_calls (domain_id : Nat) (participant_qos : ParticipantQos) : List DdsCall :=
  [DdsCall.create_participant domain_id participant_qos,
   DdsCall.builtin_subscriber,
   DdsCall.find_reader BuiltinTopic.publication,
   DdsCall.set_listener BuiltinTopic.publication,
   DdsCall.enable,
   DdsCall.create_topic "Triangle",
   DdsCall.create_subscriber,
   DdsCall.create_datareader,
   DdsCall.create_read_condition,
   DdsCall.attach_condition]

/-- The function `run_subscriber_application`. -/
def run_subscriber_application {T : Type} (P : Platform) (hash_fn : String → Nat)
    (env : Env T) (domain_id sample_count fuel : Nat) : RunResult T :=
  if env.throws_at 0 then ⟨[DdsCall.participant_qos], [], Outcome.threw⟩
  else
    match user_data_setup P hash_fn env.default_qos with
    | Except.error msg => ⟨[DdsCall.participant_qos], [Output.text msg], Outcome.returned⟩
    | Except.ok participant_qos =>
      let setup := perform env.throws_at 1 (startup_calls domain_id participant_qos)
      if setup.2 then ⟨DdsCall.participant_qos :: setup.1, [], Outcome.threw⟩
      else
        let r := dispatch_loop sample_count env.shutdown_requested env.wakeup fuel 0 0
        ⟨DdsCall.participant_qos :: setup.1 ++ r.dispatched.map (fun _ => DdsCall.dispatch),
         Output.text "::ShapeTypeExtended subscriber ready..." :: r.out,
         if r.exited_at.isSome then Outcome.returned else Outcome.running⟩

/-- The function `main` of shapes_subscriber.cxx. -/
def main {T : Type} (P : Platform) (hash_fn : String → Nat) (env : Env T)
    (arguments : ApplicationArguments) (fuel : Nat) : MainResult T :=
  match arguments.parse_result with
  | ParseReturn.exit => ⟨some EXIT_SUCCESS, [], []⟩
  | ParseReturn.failure => ⟨some EXIT_FAILURE, [], []⟩
  | ParseReturn.ok =>
    let r := run_subscriber_application P hash_fn env arguments.domain_id
      arguments.sample_count fuel
    match r.outcome with
    | Outcome.threw =>
      ⟨some EXIT_FAILURE, r.calls,
       r.out ++ [Output.text "Exception in run_subscriber_application(): "]⟩
    | Outcome.returned =>
      ⟨some EXIT_SUCCESS, r.calls ++ [DdsCall.finalize_participant_factory], r.out⟩
    | Outcome.running => ⟨none, r.calls, r.out⟩

end Subscriber

namespace Publisher

/-- The write loop of `run_publisher_application`, started with the given value
of `samples_written`. Returns the calls made, the output and whether the loop
condition was found false. -/
def write_loop {T : Type} (sample_count : Nat) (shutdown_requested : Nat → Bool) :
    Nat → Nat → List DdsCall × List (Output T) × Bool
  | 0, _ => ([], [], false)
  | fuel + 1, samples_written =>
    if !shutdown_requested samples_written && decide (samples_written < sample_count) then
      let r := write_loop sample_count shutdown_requested fuel (samples_written + 1)
      (DdsCall.write :: DdsCall.sleep :: r.1, Output.writing samples_written :: r.2.1, r.2.2)
    else ([], [], true)

/-- Lines 122-163 of `run_publisher_application`: the middleware calls before the
write loop, in program order. The participant is constructed from the domain id
alone, so with the default QoS. -/
def startup_calls (domain_id : Nat) (default_qos : ParticipantQos) : List DdsCall :=
  [DdsCall.create_participant domain_id default_qos,
   DdsCall.builtin_subscriber,
   DdsCall.find_reader BuiltinTopic.participant,
   DdsCall.set_listener BuiltinTopic.participant,
   DdsCall.find_reader BuiltinTopic.subscription,
   DdsCall.set_listener BuiltinTopic.subscription,
   DdsCall.enable,
   DdsCall.create_topic "Triangle",
   DdsCall.create_publisher,
   DdsCall.create_datawriter]

/-- The function `run_publisher_application`. -/
def run_publisher_application {T : Type} (env : Env T)
    (domain_id sample_count fuel : Nat) : RunResult T :=
  let setup := perform env.throws_at 0 (startup_calls domain_id env.default_qos)
  if setup.2 then ⟨setup.1, [], Outcome.threw⟩
  else
    let r := write_loop sample_count env.shutdown_requested fuel 0
    ⟨setup.1 ++ r.1, r.2.1, if r.2.2 then Outcome.returned else Outcome.running⟩

/-- The function `main` of shapes_publisher.cxx. -/
def main {T : Type} (env : Env T) (arguments : ApplicationArguments) (fuel : Nat) :
    MainResult T :=
  match arguments.parse_result with
  | ParseReturn.exit => ⟨some EXIT_SUCCESS, [], []⟩
  | ParseReturn.failure => ⟨some EXIT_FAILURE, [], []⟩
  | ParseReturn.ok =>
    let r : RunResult T :=
      run_publisher_application env arguments.domain_id arguments.sample_count fuel
    match r.outcome with
    | Outcome.threw =>
      ⟨some EXIT_FAILURE, r.calls,
       r.out ++ [Output.text "Exception in run_publisher_application(): "]⟩
    | Outcome.returned =>
      ⟨some EXIT_SUCCESS, r.calls ++ [DdsCall.finalize_participant_factory], r.out⟩
    | Outcome.running => ⟨none, r.calls, r.out⟩

end Publisher

/-! ## Reading a trace -/

/-- The QoS handed to each `DomainParticipant` constructor call of a trace, in
order. -/
def created_participants : List DdsCall → List ParticipantQos
  | [] => []
  | DdsCall.create_participant _ qos :: cs => qos :: created_participants cs
  | _ :: cs => created_participants cs

/-- The user data advertised by each participant that a trace enables: every
`enable` call is paired with the user data of the participant constructed last
before it (`none` when there is none). -/
def enabled_user_data : Option (List Byte) → List DdsCall → List (Option (List Byte))
  | _, [] => []
  | _, DdsCall.create_participant _ qos :: cs => enabled_user_data (some qos.user_data) cs
  | cur, DdsCall.enable :: cs => cur :: enabled_user_data cur cs
  | cur, _ :: cs => enabled_user_data cur cs

/-- An environment in which nothing throws, shutdown is never requested and
every dispatch times out. -/
def quiet_env (qos : ParticipantQos) : Env Nat :=
  ⟨qos, fun _ => false, fun _ => false, fun _ => none⟩

/-! ## The loop condition along a run -/

/-- The value of `samples_read` at the `i`-th evaluation of the loop condition of
`run_subscriber_application`: the results of `process_data` in the dispatches
before it, added up in `unsigned int`. -/
def samples_read_at {T : Type} (wakeup : Nat → Option (List (Sample T))) : Nat → Nat
  | 0 => 0
  | i + 1 => (samples_read_at wakeup i + (Subscriber.handle_wakeup (wakeup i)).1) % UINT_RANGE

/-- The loop condition `!shutdown_requested && samples_read < sample_count` at
its `i`-th evaluation. -/
def loop_guard {T : Type} (sample_count : Nat) (shutdown_requested : Nat → Bool)
    (wakeup : Nat → Option (List (Sample T))) (i : Nat) : Bool :=
  !shutdown_requested i && decide (samples_read_at wakeup i < sample_count)

/-! ## The specification's decoder, for comparison with the code -/

/-- The specification's `decode`: `none` whenever the length is not
`sizeof(Fingerprint)`. -/
def spec_decode (P : Platform) (raw : List Byte) : Option Nat :=
  if raw.length = P.sizeof_size_t then some (object_value P raw) else none

/-! ## Object representation: lemmas -/

theorem bytes_le_length (w n : Nat) : (bytes_le w n).length = w := by
  induction w generalizing n with
  | zero => rfl
  | succ w ih => simp [bytes_le, ih]

theorem value_le_bytes_le (w n : Nat) : value_le (bytes_le w n) = n % 256 ^ w := by
  induction w generalizing n with
  | zero => simp [bytes_le, value_le, Nat.mod_one]
  | succ w ih =>
    simp only [bytes_le, value_le, ih]
    rw [pow_succ, Nat.mul_comm (256 ^ w) 256, Nat.mod_mul]

theorem bytes_le_value_le (bs : List Byte) : bytes_le bs.length (value_le bs) = bs := by
  induction bs with
  | nil => rfl
  | cons b bs ih =>
    have hb : b.val < 256 := b.isLt
    have h1 : (b.val + 256 * value_le bs) % 256 = b.val := by omega
    have h2 : (b.val + 256 * value_le bs) / 256 = value_le bs := by omega
    simp only [List.length_cons, bytes_le, value_le, h2, ih]
    congr 1
    exact Fin.ext h1

theorem object_bytes_length (P : Platform) (n : Nat) :
    (object_bytes P n).length = P.sizeof_size_t := by
  unfold object_bytes
  split <;> simp [bytes_le_length]

theorem object_value_object_bytes (P : Platform) (n : Nat) :
    object_value P (object_bytes P n) = n % P.size_t_range := by
  unfold object_value object_bytes Platform.size_t_range
  split <;> simp [value_le_bytes_le]

theorem object_bytes_object_value (P : Platform) (bs : List Byte)
    (h : bs.length = P.sizeof_size_t) : object_bytes P (object_value P bs) = bs := by
  unfold object_value object_bytes
  split
  · have := bytes_le_value_le bs.reverse
    rw [List.length_reverse, h] at this
    rw [this, List.reverse_reverse]
  · have := bytes_le_value_le bs
    rw [h] at this
    exact this

theorem std_hash_lt (P : Platform) (hash_fn : String → Nat) (s : String) :
    std_hash P hash_fn s < P.size_t_range := by
  unfold std_hash Platform.size_t_range
  exact Nat.mod_lt _ (Nat.pow_pos (by decide))

theorem sizeof_size_t_le_secret (P : Platform) :
    P.sizeof_size_t ≤ Subscriber.shared_secret.length := by
  have h : Subscriber.shared_secret.length = 64 := by decide
  rw [h]
  unfold Platform.sizeof_size_t
  split <;> decide

/-- The user data of a fingerprint is read back as that fingerprint. -/
theorem read_user_hash_object_bytes (P : Platform) (n : Nat) (h : n < P.size_t_range) :
    Publisher.read_user_hash P (object_bytes P n) = n := by
  unfold Publisher.read_user_hash
  rw [if_pos (object_bytes_length P n), object_value_object_bytes, Nat.mod_eq_of_lt h]

/-- On user data of the right length, the value read determines the bytes. -/
theorem read_user_hash_eq_iff (P : Platform) (ud : List Byte) (n : Nat)
    (hlen : ud.length = P.sizeof_size_t) (hn : n < P.size_t_range) :
    Publisher.read_user_hash P ud = n ↔ ud = object_bytes P n := by
  constructor
  · intro h
    unfold Publisher.read_user_hash at h
    rw [if_pos hlen] at h
    rw [← h, object_bytes_object_value P ud hlen]
  · intro h
    rw [h, read_user_hash_object_bytes P n hn]

/-- The effects of the member listener on a one-sample batch. -/
theorem participant_listener_single (P : Platform) (local_hash : Nat)
    (sample : Sample ParticipantBuiltinTopicData) :
    Publisher.ParticipantListener.on_data_available P local_hash [sample] =
      Publisher.ParticipantListener.process_sample P local_hash sample := by
  simp [Publisher.ParticipantListener.on_data_available]

/-- The ignore commands of the member listener for one sample. -/
theorem ignore_commands_process_sample (P : Platform) (local_hash : Nat)
    (sample : Sample ParticipantBuiltinTopicData) :
    ignore_commands (Publisher.ParticipantListener.process_sample P local_hash sample) =
      if sample.info.valid = true ∧ Publisher.read_user_hash P sample.data.user_data ≠ local_hash
      then [sample.info.instance_handle] else [] := by
  unfold Publisher.ParticipantListener.process_sample
  cases hv : sample.info.valid
  · simp [ignore_commands]
  · by_cases hh : Publisher.read_user_hash P sample.data.user_data = local_hash
    · simp [hh, ignore_commands]
    · simp [hh, ignore_commands]

/-- The ignore commands of a batch are those of its samples, in order. -/
theorem ignore_commands_append (es fs : List Effect) :
    ignore_commands (es ++ fs) = ignore_commands es ++ ignore_commands fs := by
  induction es with
  | nil => rfl
  | cons e es ih => cases e <;> simp [ignore_commands, ih]

/-- The subscriber's set-up either fails or stores the bytes of the hash. -/
theorem user_data_setup_ok (P : Platform) (hash_fn : String → Nat)
    (qos qos' : ParticipantQos)
    (h : Subscriber.user_data_setup P hash_fn qos = Except.ok qos') :
    Subscriber.shared_secret.length ≤ qos.participant_user_data_max_length ∧
      qos' = { qos with
        user_data := object_bytes P (std_hash P hash_fn Subscriber.shared_secret) } := by
  unfold Subscriber.user_data_setup at h
  by_cases hgt : Subscriber.shared_secret.length > qos.participant_user_data_max_length
  · simp [hgt] at h
  · simp only [hgt, if_false] at h
    exact ⟨Nat.le_of_not_gt hgt, (Except.ok.inj h).symm⟩

/-- The calls attempted by `perform` are among the planned ones. -/
theorem mem_of_mem_perform (throws_at : Nat → Bool) (n : Nat) (cs : List DdsCall)
    (c : DdsCall) (h : c ∈ (perform throws_at n cs).1) : c ∈ cs := by
  induction cs generalizing n with
  | nil => simp [perform] at h
  | cons d ds ih =>
    unfold perform at h
    by_cases ht : throws_at n = true
    · simp [ht] at h
      simp [h]
    · simp [ht] at h
      rcases h with h | h
      · simp [h]
      · exact List.mem_cons_of_mem _ (ih (n + 1) h)

/-- A participant created by the subscriber carries the outcome of the set-up. -/
theorem subscriber_created_participant {T : Type} (P : Platform) (hash_fn : String → Nat)
    (env : Env T) (domain_id sample_count fuel d : Nat) (qos : ParticipantQos)
    (h : DdsCall.create_participant d qos ∈
      (Subscriber.run_subscriber_application P hash_fn env domain_id sample_count fuel).calls) :
    Subscriber.user_data_setup P hash_fn env.default_qos = Except.ok qos := by
  unfold Subscriber.run_subscriber_application at h
  cases h0 : env.throws_at 0
  · simp only [h0, Bool.false_eq_true, if_false] at h
    cases hs : Subscriber.user_data_setup P hash_fn env.default_qos with
    | error msg => simp [hs] at h
    | ok q =>
      simp only [hs] at h
      have hmem : DdsCall.create_participant d qos ∈ Subscriber.startup_calls domain_id q := by
        cases h2 : (perform env.throws_at 1 (Subscriber.startup_calls domain_id q)).2
        · simp only [h2, Bool.false_eq_true, if_false, List.cons_append, List.mem_cons,
            List.mem_append, List.mem_map] at h
          rcases h with h | h | ⟨_, _, h⟩
          · cases h
          · exact mem_of_mem_perform _ _ _ _ h
          · cases h
        · simp only [h2, if_true, List.mem_cons] at h
          rcases h with h | h
          · cases h
          · exact mem_of_mem_perform _ _ _ _ h
      simp [Subscriber.startup_calls] at hmem
      rw [hmem.2]
  · simp [h0] at h

/-- The set-up takes its error branch exactly when the limit is below the length
of the secret string. -/
theorem user_data_setup_error_iff (P : Platform) (hash_fn : String → Nat)
    (qos : ParticipantQos) :
    Subscriber.user_data_setup P hash_fn qos =
        Except.error "error, participant user_data exceeds resource limits" ↔
      qos.participant_user_data_max_length < 64 := by
  have hlen : Subscriber.shared_secret.length = 64 := by decide
  unfold Subscriber.user_data_setup
  rw [hlen]
  by_cases h : 64 > qos.participant_user_data_max_length
  · simp [h]
  · simp only [h, if_false]
    constructor
    · intro he
      cases he
    · intro hf
      exact hf.elim

/-- Whenever the set-up takes its error branch and the command line was parsed,
`main` returns `EXIT_SUCCESS`, provided reading the default QoS did not throw. -/
theorem main_exit_code_after_setup_error {T : Type} (P : Platform) (hash_fn : String → Nat)
    (env : Env T) (arguments : ApplicationArguments) (fuel : Nat)
    (hparse : arguments.parse_result = ParseReturn.ok)
    (hqos : env.throws_at 0 = false)
    (hlt : env.default_qos.participant_user_data_max_length < 64) :
    (Subscriber.main P hash_fn env arguments fuel).exit_code = some EXIT_SUCCESS := by
  have hs := (user_data_setup_error_iff P hash_fn env.default_qos).mpr hlt
  unfold Subscriber.main
  rw [hparse]
  simp [Subscriber.run_subscriber_application, hqos, hs]

/-! ## Claims about the codec and the admission decision -/

/-- The value 0 is what `user_hash` holds when nothing was read: were the hash
of the secret 0, a valid participant with empty user data would only be printed.
So the theorem below needs its hypothesis of a non-zero `secret_hash`. -/
theorem zero_hash_reads_as_missing_metadata :
    Publisher.secret_hash ⟨DataModel.LP64, false⟩ (fun _ => 0) = 0 ∧
    Publisher.ParticipantListener.on_data_available ⟨DataModel.LP64, false⟩
        (Publisher.secret_hash ⟨DataModel.LP64, false⟩ (fun _ => 0))
        [⟨⟨true, 7, InstanceState.alive⟩, ⟨⟨1, 2, 3⟩, []⟩⟩] =
      [Effect.found_participant ⟨1, 2, 3⟩ 0 7] := by
  decide

/-- C2 (failing input): on an LP64 platform with
`participant_user_data_max_length = 8` the fingerprint (8 bytes) fits, yet the
set-up compares the length of the secret string (64) with the limit, takes the
error branch and no participant is created. -/
theorem setup_rejects_fitting_fingerprint :
    (⟨DataModel.LP64, false⟩ : Platform).sizeof_size_t ≤ 8 ∧
    Subscriber.user_data_setup ⟨DataModel.LP64, false⟩ (fun _ => 258) ⟨[], 8⟩ =
      Except.error "error, participant user_data exceeds resource limits" ∧
    (Subscriber.run_subscriber_application ⟨DataModel.LP64, false⟩ (fun _ => 258)
      (quiet_env ⟨[], 8⟩) 0 5 3).calls = [DdsCall.participant_qos] := by
  refine ⟨by decide, rfl, by decide⟩

/-- C3 (failing input): with `participant_user_data_max_length = 7` on an LP64
platform the subscriber prints the error and creates no participant, but
`run_subscriber_application` returns normally and `main` returns `EXIT_SUCCESS`. -/
theorem oversize_start_exits_with_success :
    (7 : Nat) < (⟨DataModel.LP64, false⟩ : Platform).sizeof_size_t ∧
    created_participants (Subscriber.main ⟨DataModel.LP64, false⟩ (fun _ => 258)
      (quiet_env ⟨[], 7⟩) ⟨ParseReturn.ok, 0, 5⟩ 3).calls = [] ∧
    (Subscriber.main ⟨DataModel.LP64, false⟩ (fun _ => 258)
      (quiet_env ⟨[], 7⟩) ⟨ParseReturn.ok, 0, 5⟩ 3).out =
      [Output.text "error, participant user_data exceeds resource limits"] ∧
    (Subscriber.main ⟨DataModel.LP64, false⟩ (fun _ => 258)
      (quiet_env ⟨[], 7⟩) ⟨ParseReturn.ok, 0, 5⟩ 3).exit_code = some 0 := by
  refine ⟨by decide, by decide, by decide, by decide⟩

/-- C4: when the maximum user-data length is below `sizeof(std::size_t)` the
subscriber's set-up takes the error branch, and the run creates no participant
(so sets no user data); and whenever the set-up does set user data, its length is
`sizeof(std::size_t)`. -/
theorem setup_fails_on_oversize {T : Type} (P : Platform) (hash_fn : String → Nat)
    (env : Env T) (domain_id sample_count fuel : Nat) :
    (env.default_qos.participant_user_data_max_length < P.sizeof_size_t →
      Subscriber.user_data_setup P hash_fn env.default_qos =
          Except.error "error, participant user_data exceeds resource limits" ∧
        created_participants
          (Subscriber.run_subscriber_application P hash_fn env domain_id sample_count
            fuel).calls = []) ∧
    (∀ qos', Subscriber.user_data_setup P hash_fn env.default_qos = Except.ok qos' →
      qos'.user_data.length = P.sizeof_size_t) := by
  constructor
  · intro hlt
    have hgt : Subscriber.shared_secret.length >
        env.default_qos.participant_user_data_max_length :=
      Nat.lt_of_lt_of_le hlt (sizeof_size_t_le_secret P)
    have hs : Subscriber.user_data_setup P hash_fn env.default_qos =
        Except.error "error, participant user_data exceeds resource limits" := by
      unfold Subscriber.user_data_setup
      simp only [hgt, if_true]
    refine ⟨hs, ?_⟩
    unfold Subscriber.run_subscriber_application
    by_cases h0 : env.throws_at 0 = true
    · simp [h0, created_participants]
    · simp [h0, hs, created_participants]
  · intro qos' h
    rw [(user_data_setup_ok P hash_fn _ qos' h).2]
    exact object_bytes_length P _

/-- Witness of C4: an ILP32 platform with a limit of 3 takes the error branch, and
with a limit of 64 the user data that is set has 4 bytes. -/
theorem setup_fails_on_oversize_witness :
    (Subscriber.user_data_setup ⟨DataModel.ILP32, true⟩ (fun _ => 258) ⟨[], 3⟩ =
        Except.error "error, participant user_data exceeds resource limits" ∧
      created_participants
        (Subscriber.run_subscriber_application ⟨DataModel.ILP32, true⟩ (fun _ => 258)
          (quiet_env ⟨[], 3⟩) 0 5 3).calls = []) ∧
    (⟨[0, 0, 1, 2], 64⟩ : ParticipantQos).user_data.length =
      (⟨DataModel.ILP32, true⟩ : Platform).sizeof_size_t :=
  ⟨(setup_fails_on_oversize ⟨DataModel.ILP32, true⟩ (fun _ => 258) (quiet_env ⟨[], 3⟩)
      0 5 3).1 (by decide),
   (setup_fails_on_oversize ⟨DataModel.ILP32, true⟩ (fun _ => 258) (quiet_env ⟨[], 64⟩)
      0 5 3).2 ⟨[0, 0, 1, 2], 64⟩ rfl⟩

/-- C5: for a valid discovered participant whose user data has exactly
`sizeof(std::size_t)` bytes, the listener only prints the participant (takes no
action) when the bytes equal the object representation of `secret_hash`, and
issues one ignore command for its handle when they differ; it ignores exactly
when the decoded fingerprint is absent or differs from the local one. -/
theorem admission_on_well_formed_metadata (P : Platform) (hash_fn : String → Nat)
    (sample : Sample ParticipantBuiltinTopicData)
    (hvalid : sample.info.valid = true)
    (hlen : sample.data.user_data.length = P.sizeof_size_t) :
    (sample.data.user_data = object_bytes P (Publisher.secret_hash P hash_fn) →
      Publisher.ParticipantListener.on_data_available P (Publisher.secret_hash P hash_fn)
          [sample] =
        [Effect.found_participant sample.data.key (Publisher.secret_hash P hash_fn)
          sample.info.instance_handle]) ∧
    (sample.data.user_data ≠ object_bytes P (Publisher.secret_hash P hash_fn) →
      ignore_commands (Publisher.ParticipantListener.on_data_available P
          (Publisher.secret_hash P hash_fn) [sample]) = [sample.info.instance_handle]) ∧
    (ignore_commands (Publisher.ParticipantListener.on_data_available P
          (Publisher.secret_hash P hash_fn) [sample]) = [sample.info.instance_handle] ↔
      (spec_decode P sample.data.user_data = none ∨
        spec_decode P sample.data.user_data ≠ some (Publisher.secret_hash P hash_fn))) := by
  have hlt : Publisher.secret_hash P hash_fn < P.size_t_range := std_hash_lt P hash_fn _
  have hiff := read_user_hash_eq_iff P sample.data.user_data _ hlen hlt
  have hdec : spec_decode P sample.data.user_data =
      some (Publisher.read_user_hash P sample.data.user_data) := by
    unfold spec_decode Publisher.read_user_hash
    rw [if_pos hlen, if_pos hlen]
  refine ⟨?_, ?_, ?_⟩
  · intro heq
    have hr := hiff.mpr heq
    rw [participant_listener_single]
    unfold Publisher.ParticipantListener.process_sample
    simp [hvalid, hr]
  · intro hne
    have hr : Publisher.read_user_hash P sample.data.user_data ≠
        Publisher.secret_hash P hash_fn := fun h => hne (hiff.mp h)
    rw [participant_listener_single, ignore_commands_process_sample, if_pos ⟨hvalid, hr⟩]
  · rw [participant_listener_single, ignore_commands_process_sample, hdec]
    by_cases hr : Publisher.read_user_hash P sample.data.user_data =
        Publisher.secret_hash P hash_fn
    · simp [hr]
    · simp [hr, hvalid]

/-- Witness of C5: on LP64 little-endian with hash 258, the bytes of 258 are
accepted. -/
theorem admission_on_well_formed_metadata_witness :
    (true = true ∧ ([2, 1, 0, 0, 0, 0, 0, 0] : List Byte).length = 8) ∧
    Publisher.ParticipantListener.on_data_available ⟨DataModel.LP64, false⟩
        (Publisher.secret_hash ⟨DataModel.LP64, false⟩ (fun _ => 258))
        [⟨⟨true, 7, InstanceState.alive⟩, ⟨⟨1, 2, 3⟩, [2, 1, 0, 0, 0, 0, 0, 0]⟩⟩] =
      [Effect.found_participant ⟨1, 2, 3⟩
        (Publisher.secret_hash ⟨DataModel.LP64, false⟩ (fun _ => 258)) 7] :=
  ⟨⟨rfl, rfl⟩,
   (admission_on_well_formed_metadata ⟨DataModel.LP64, false⟩ (fun _ => 258)
      ⟨⟨true, 7, InstanceState.alive⟩, ⟨⟨1, 2, 3⟩, [2, 1, 0, 0, 0, 0, 0, 0]⟩⟩
      rfl rfl).1 (by decide)⟩

/-- The member listener distributes over concatenation of batches. -/
theorem participant_listener_append (P : Platform) (local_hash : Nat)
    (xs ys : List (Sample ParticipantBuiltinTopicData)) :
    Publisher.ParticipantListener.on_data_available P local_hash (xs ++ ys) =
      Publisher.ParticipantListener.on_data_available P local_hash xs ++
        Publisher.ParticipantListener.on_data_available P local_hash ys := by
  induction xs with
  | nil => rfl
  | cons x xs ih =>
    simp [Publisher.ParticipantListener.on_data_available, ih]

/-- The subscriber-endpoint listener distributes over concatenation of batches. -/
theorem subscriber_listener_append (xs ys : List (Sample EndpointBuiltinTopicData)) :
    Publisher.SubscriberListener.on_data_available (xs ++ ys) =
      Publisher.SubscriberListener.on_data_available xs ++
        Publisher.SubscriberListener.on_data_available ys := by
  induction xs with
  | nil => rfl
  | cons x xs ih =>
    simp [Publisher.SubscriberListener.on_data_available, ih]

/-- The publisher-endpoint listener distributes over concatenation of batches. -/
theorem publisher_listener_append (xs ys : List (Sample EndpointBuiltinTopicData)) :
    Subscriber.PublisherListener.on_data_available (xs ++ ys) =
      Subscriber.PublisherListener.on_data_available xs ++
        Subscriber.PublisherListener.on_data_available ys := by
  induction xs with
  | nil => rfl
  | cons x xs ih =>
    simp [Subscriber.PublisherListener.on_data_available, ih]

/-- C6: on a batch of valid discovered participants the listener's ignore
commands are exactly the instance handles of the participants whose fingerprint,
as the listener reads it, differs from `secret_hash`, one per such participant
and in batch order; participants whose fingerprint matches get none. When every
participant of the batch advertises user data of fingerprint length, these are
the participants whose bytes differ from the object representation of
`secret_hash`. -/
theorem exclusions_per_batch (P : Platform) (hash_fn : String → Nat)
    (batch : List (Sample ParticipantBuiltinTopicData))
    (hvalid : ∀ s ∈ batch, s.info.valid = true) :
    ignore_commands (Publisher.ParticipantListener.on_data_available P
        (Publisher.secret_hash P hash_fn) batch) =
      (batch.filter (fun s => decide (Publisher.read_user_hash P s.data.user_data ≠
        Publisher.secret_hash P hash_fn))).map (fun s => s.info.instance_handle) ∧
    ((∀ s ∈ batch, s.data.user_data.length = P.sizeof_size_t) →
      ignore_commands (Publisher.ParticipantListener.on_data_available P
          (Publisher.secret_hash P hash_fn) batch) =
        (batch.filter (fun s => decide (s.data.user_data ≠
          object_bytes P (Publisher.secret_hash P hash_fn)))).map
            (fun s => s.info.instance_handle)) := by
  have hlt : Publisher.secret_hash P hash_fn < P.size_t_range := std_hash_lt P hash_fn _
  induction batch with
  | nil => exact ⟨rfl, fun _ => rfl⟩
  | cons s rest ih =>
    have hs : s.info.valid = true := hvalid s (List.mem_cons_self _ _)
    have hrest : ∀ t ∈ rest, t.info.valid = true :=
      fun t ht => hvalid t (List.mem_cons_of_mem _ ht)
    obtain ⟨ih1, ih2⟩ := ih hrest
    have hhead : ignore_commands (Publisher.ParticipantListener.on_data_available P
        (Publisher.secret_hash P hash_fn) (s :: rest)) =
        (if Publisher.read_user_hash P s.data.user_data ≠ Publisher.secret_hash P hash_fn
          then [s.info.instance_handle] else []) ++
        ignore_commands (Publisher.ParticipantListener.on_data_available P
          (Publisher.secret_hash P hash_fn) rest) := by
      simp only [Publisher.ParticipantListener.on_data_available, ignore_commands_append,
        ignore_commands_process_sample, hs, true_and]
    constructor
    · rw [hhead, ih1]
      by_cases hr : Publisher.read_user_hash P s.data.user_data =
          Publisher.secret_hash P hash_fn
      · simp [List.filter_cons, hr]
      · simp [List.filter_cons, hr]
    · intro hlen
      have hl : s.data.user_data.length = P.sizeof_size_t := hlen s (List.mem_cons_self _ _)
      have hiff := read_user_hash_eq_iff P s.data.user_data _ hl hlt
      rw [hhead, ih2 (fun t ht => hlen t (List.mem_cons_of_mem _ ht))]
      by_cases hr : Publisher.read_user_hash P s.data.user_data =
          Publisher.secret_hash P hash_fn
      · have hb := hiff.mp hr
        rw [if_neg (not_not.mpr hr)]
        simp [List.filter_cons, hb]
      · have hb : s.data.user_data ≠ object_bytes P (Publisher.secret_hash P hash_fn) :=
          fun h => hr (hiff.mpr h)
        rw [if_pos hr]
        simp [List.filter_cons, hb]

/-- Witness of C6: of three valid participants, the first and the last advertise
a wrong fingerprint (one of them none at all) and are ignored, in that order. -/
theorem exclusions_per_batch_witness :
    ignore_commands (Publisher.ParticipantListener.on_data_available ⟨DataModel.ILP32, false⟩
        (Publisher.secret_hash ⟨DataModel.ILP32, false⟩ (fun _ => 258))
        [⟨⟨true, 7, InstanceState.alive⟩, ⟨⟨1, 2, 3⟩, [3, 1, 0, 0]⟩⟩,
         ⟨⟨true, 8, InstanceState.alive⟩, ⟨⟨1, 2, 4⟩, [2, 1, 0, 0]⟩⟩,
         ⟨⟨true, 9, InstanceState.alive⟩, ⟨⟨1, 2, 5⟩, []⟩⟩]) = [7, 9] :=
  (exclusions_per_batch ⟨DataModel.ILP32, false⟩ (fun _ => 258)
    [⟨⟨true, 7, InstanceState.alive⟩, ⟨⟨1, 2, 3⟩, [3, 1, 0, 0]⟩⟩,
     ⟨⟨true, 8, InstanceState.alive⟩, ⟨⟨1, 2, 4⟩, [2, 1, 0, 0]⟩⟩,
     ⟨⟨true, 9, InstanceState.alive⟩, ⟨⟨1, 2, 5⟩, []⟩⟩]
    (by decide)).1.trans (by decide)

/-- C7: whatever the hash function and the platform, a participant that the
subscriber creates carries user data that the publisher's listener reads back as
the publisher's own `secret_hash`; a valid discovered participant with that user
data is not ignored. -/
theorem same_secret_never_excluded {T : Type} (P : Platform) (hash_fn : String → Nat)
    (env : Env T) (domain_id sample_count fuel d : Nat) (qos : ParticipantQos)
    (sample : Sample ParticipantBuiltinTopicData)
    (hstart : DdsCall.create_participant d qos ∈
      (Subscriber.run_subscriber_application P hash_fn env domain_id sample_count fuel).calls)
    (hud : sample.data.user_data = qos.user_data) :
    Publisher.read_user_hash P qos.user_data = Publisher.secret_hash P hash_fn ∧
    ignore_commands (Publisher.ParticipantListener.on_data_available P
      (Publisher.secret_hash P hash_fn) [sample]) = [] := by
  have hsetup := subscriber_created_participant P hash_fn env domain_id sample_count fuel d
    qos hstart
  have hq := (user_data_setup_ok P hash_fn _ qos hsetup).2
  have hsecret : Subscriber.shared_secret = Publisher.shared_secret := rfl
  have hread : Publisher.read_user_hash P qos.user_data = Publisher.secret_hash P hash_fn := by
    rw [hq]
    unfold Publisher.secret_hash
    rw [hsecret]
    exact read_user_hash_object_bytes P _ (std_hash_lt P hash_fn _)
  refine ⟨hread, ?_⟩
  rw [participant_listener_single, ignore_commands_process_sample, hud]
  simp [hread]

/-- Witness of C7: a big-endian LP64 subscriber with a limit of 64 bytes starts,
and the participant it creates is accepted by the publisher. -/
theorem same_secret_never_excluded_witness :
    DdsCall.create_participant 0 ⟨[0, 0, 0, 0, 0, 0, 1, 2], 64⟩ ∈
      (Subscriber.run_subscriber_application ⟨DataModel.LP64, true⟩ (fun _ => 258)
        (quiet_env ⟨[], 64⟩) 0 5 3).calls ∧
    ignore_commands (Publisher.ParticipantListener.on_data_available ⟨DataModel.LP64, true⟩
      (Publisher.secret_hash ⟨DataModel.LP64, true⟩ (fun _ => 258))
      [⟨⟨true, 7, InstanceState.alive⟩, ⟨⟨1, 2, 3⟩, [0, 0, 0, 0, 0, 0, 1, 2]⟩⟩]) = [] :=
  ⟨by decide,
   (same_secret_never_excluded ⟨DataModel.LP64, true⟩ (fun _ => 258) (quiet_env ⟨[], 64⟩)
      0 5 3 0 ⟨[0, 0, 0, 0, 0, 0, 1, 2], 64⟩
      ⟨⟨true, 7, InstanceState.alive⟩, ⟨⟨1, 2, 3⟩, [0, 0, 0, 0, 0, 0, 1, 2]⟩⟩
      (by decide) rfl).2⟩

/-! ## Claims about the start-up order -/

/-- Calls of the loops (`dispatch`, `write`, `sleep`) enable nothing. -/
theorem enabled_user_data_inert (cur : Option (List Byte)) (m : List DdsCall)
    (hm : ∀ c ∈ m, c = DdsCall.dispatch ∨ c = DdsCall.write ∨ c = DdsCall.sleep) :
    enabled_user_data cur m = [] := by
  induction m with
  | nil => rfl
  | cons c m ih =>
    have hrest := ih (fun x hx => hm x (List.mem_cons_of_mem _ hx))
    rcases hm c (List.mem_cons_self _ _) with h | h | h <;>
      · subst h
        simp [enabled_user_data, hrest]

/-- Calls of the loops appended to a trace enable nothing more. -/
theorem enabled_user_data_append_inert (cur : Option (List Byte)) (l m : List DdsCall)
    (hm : ∀ c ∈ m, c = DdsCall.dispatch ∨ c = DdsCall.write ∨ c = DdsCall.sleep) :
    enabled_user_data cur (l ++ m) = enabled_user_data cur l := by
  induction l generalizing cur with
  | nil => simpa [enabled_user_data] using enabled_user_data_inert cur m hm
  | cons c l ih => cases c <;> simp [enabled_user_data, ih]

/-- Calls of the loops create no participant. -/
theorem created_participants_append_inert (l m : List DdsCall)
    (hm : ∀ c ∈ m, c = DdsCall.dispatch ∨ c = DdsCall.write ∨ c = DdsCall.sleep) :
    created_participants (l ++ m) = created_participants l := by
  induction l with
  | nil =>
    induction m with
    | nil => rfl
    | cons c m ih =>
      have hrest := ih (fun x hx => hm x (List.mem_cons_of_mem _ hx))
      simp only [List.nil_append] at hrest ⊢
      rcases hm c (List.mem_cons_self _ _) with h | h | h <;>
        · subst h
          simp [created_participants, hrest]
  | cons c l ih => cases c <;> simp [created_participants, ih]

/-- The write loop only writes and sleeps. -/
theorem write_loop_calls {T : Type} (sample_count : Nat) (shutdown_requested : Nat → Bool)
    (fuel samples_written : Nat) :
    ∀ c ∈ (Publisher.write_loop (T := T) sample_count shutdown_requested fuel
        samples_written).1,
      c = DdsCall.dispatch ∨ c = DdsCall.write ∨ c = DdsCall.sleep := by
  induction fuel generalizing samples_written with
  | zero => simp [Publisher.write_loop]
  | succ fuel ih =>
    intro c hc
    unfold Publisher.write_loop at hc
    split at hc
    · simp only [List.mem_cons] at hc
      rcases hc with h | h | h
      · exact Or.inr (Or.inl h)
      · exact Or.inr (Or.inr h)
      · exact ih _ c h
    · simp at hc

/-- The dispatches of the subscriber's loop, as calls. -/
theorem dispatch_calls (xs : List Nat) :
    ∀ c ∈ xs.map (fun _ => DdsCall.dispatch),
      c = DdsCall.dispatch ∨ c = DdsCall.write ∨ c = DdsCall.sleep := by
  intro c hc
  simp only [List.mem_map] at hc
  obtain ⟨_, _, h⟩ := hc
  exact Or.inl h.symm

/-- The calls attempted by `perform` are a non-empty initial segment of the plan. -/
theorem perform_eq_take (throws_at : Nat → Bool) (n : Nat) (cs : List DdsCall) :
    ∃ k, (cs ≠ [] → 0 < k) ∧ k ≤ cs.length ∧ (perform throws_at n cs).1 = cs.take k := by
  induction cs generalizing n with
  | nil => exact ⟨0, fun h => absurd rfl h, Nat.le_refl _, rfl⟩
  | cons c cs ih =>
    unfold perform
    cases ht : throws_at n
    · obtain ⟨k, _, hle, hk⟩ := ih (n + 1)
      refine ⟨k + 1, fun _ => Nat.succ_pos k, by simpa using hle, ?_⟩
      simp [hk]
    · exact ⟨1, fun _ => Nat.one_pos, by simp, by simp⟩

/-- Whatever throws, the subscriber's start-up creates its participant with the
given QoS and enables none but it. -/
theorem subscriber_startup_trace (throws_at : Nat → Bool) (domain_id : Nat)
    (qos : ParticipantQos) :
    created_participants (perform throws_at 1 (Subscriber.startup_calls domain_id qos)).1 =
        [qos] ∧
      ∀ ud ∈ enabled_user_data none
          (perform throws_at 1 (Subscriber.startup_calls domain_id qos)).1,
        ud = some qos.user_data := by
  obtain ⟨k, hpos, hle, hk⟩ :=
    perform_eq_take throws_at 1 (Subscriber.startup_calls domain_id qos)
  rw [hk]
  have hlen : (Subscriber.startup_calls domain_id qos).length = 10 := rfl
  have h0 : 0 < k := hpos (by simp [Subscriber.startup_calls])
  rw [hlen] at hle
  interval_cases k <;>
    simp [Subscriber.startup_calls, created_participants, enabled_user_data]

/-- Whatever throws, the publisher's start-up creates its participant with the
default QoS and enables none but it. -/
theorem publisher_startup_trace (throws_at : Nat → Bool) (domain_id : Nat)
    (qos : ParticipantQos) :
    created_participants (perform throws_at 0 (Publisher.startup_calls domain_id qos)).1 =
        [qos] ∧
      ∀ ud ∈ enabled_user_data none
          (perform throws_at 0 (Publisher.startup_calls domain_id qos)).1,
        ud = some qos.user_data := by
  obtain ⟨k, hpos, hle, hk⟩ :=
    perform_eq_take throws_at 0 (Publisher.startup_calls domain_id qos)
  rw [hk]
  have hlen : (Publisher.startup_calls domain_id qos).length = 10 := rfl
  have h0 : 0 < k := hpos (by simp [Publisher.startup_calls])
  rw [hlen] at hle
  interval_cases k <;>
    simp [Publisher.startup_calls, created_participants, enabled_user_data]

/-- C8 (counterexample): the publisher role, run where the default QoS carries no
user data, enables a participant that advertises the empty user data and not the
bytes of `secret_hash`; so it is false that in both roles every enabled
participant advertises the fingerprint. -/
theorem publisher_enables_without_fingerprint :
    ¬ (∀ (P : Platform) (hash_fn : String → Nat) (env : Env Nat)
        (domain_id sample_count fuel : Nat),
        (∀ ud ∈ enabled_user_data none
            (Publisher.run_publisher_application env domain_id sample_count fuel).calls,
          ud = some (object_bytes P (Publisher.secret_hash P hash_fn))) ∧
        (∀ ud ∈ enabled_user_data none
            (Subscriber.run_subscriber_application P hash_fn env domain_id sample_count
              fuel).calls,
          ud = some (object_bytes P (std_hash P hash_fn Subscriber.shared_secret)))) := by
  intro h
  have h1 := (h ⟨DataModel.LP64, false⟩ (fun _ => 258) (quiet_env ⟨[], 64⟩) 0 5 3).1
  revert h1
  decide

/-- C8 (amended): in the subscriber role every participant that is created
carries as user data the bytes of the hash of the shared secret, and every
participant that is enabled is one created so before; the publisher role sets no
user data: the participant it creates and enables carries the default QoS. -/
theorem subscriber_sets_fingerprint_before_enable {T : Type} (P : Platform)
    (hash_fn : String → Nat) (env : Env T) (domain_id sample_count fuel : Nat) :
    (∀ qos ∈ created_participants
        (Subscriber.run_subscriber_application P hash_fn env domain_id sample_count
          fuel).calls,
      qos.user_data = object_bytes P (std_hash P hash_fn Subscriber.shared_secret)) ∧
    (∀ ud ∈ enabled_user_data none
        (Subscriber.run_subscriber_application P hash_fn env domain_id sample_count
          fuel).calls,
      ud = some (object_bytes P (std_hash P hash_fn Subscriber.shared_secret))) ∧
    created_participants
        (Publisher.run_publisher_application env domain_id sample_count fuel).calls =
      [env.default_qos] ∧
    (∀ ud ∈ enabled_user_data none
        (Publisher.run_publisher_application env domain_id sample_count fuel).calls,
      ud = some env.default_qos.user_data) := by
  have hsub : (∀ qos ∈ created_participants
        (Subscriber.run_subscriber_application P hash_fn env domain_id sample_count
          fuel).calls,
      qos.user_data = object_bytes P (std_hash P hash_fn Subscriber.shared_secret)) ∧
    (∀ ud ∈ enabled_user_data none
        (Subscriber.run_subscriber_application P hash_fn env domain_id sample_count
          fuel).calls,
      ud = some (object_bytes P (std_hash P hash_fn Subscriber.shared_secret))) := by
    unfold Subscriber.run_subscriber_application
    cases h0 : env.throws_at 0
    · simp only [Bool.false_eq_true, if_false]
      cases hs : Subscriber.user_data_setup P hash_fn env.default_qos with
      | error msg => simp [created_participants, enabled_user_data]
      | ok q =>
        have hq := (user_data_setup_ok P hash_fn _ q hs).2
        have hqd : q.user_data =
            object_bytes P (std_hash P hash_fn Subscriber.shared_secret) := by rw [hq]
        obtain ⟨hc, he⟩ := subscriber_startup_trace env.throws_at domain_id q
        dsimp only
        cases h2 : (perform env.throws_at 1 (Subscriber.startup_calls domain_id q)).2
        · simp only [Bool.false_eq_true, if_false, List.cons_append]
          simp only [created_participants, enabled_user_data]
          rw [created_participants_append_inert _ _ (dispatch_calls _),
            enabled_user_data_append_inert _ _ _ (dispatch_calls _), hc]
          refine ⟨?_, ?_⟩
          · intro qos hqos
            rw [List.mem_singleton.mp hqos, hqd]
          · intro ud hud
            rw [he ud hud, hqd]
        · simp only [if_true, created_participants, enabled_user_data, hc]
          refine ⟨?_, ?_⟩
          · intro qos hqos
            rw [List.mem_singleton.mp hqos, hqd]
          · intro ud hud
            rw [he ud hud, hqd]
    · simp [created_participants, enabled_user_data]
  refine ⟨hsub.1, hsub.2, ?_⟩
  obtain ⟨hc, he⟩ := publisher_startup_trace env.throws_at domain_id env.default_qos
  unfold Publisher.run_publisher_application
  dsimp only
  cases h2 : (perform env.throws_at 0 (Publisher.startup_calls domain_id env.default_qos)).2
  · simp only [Bool.false_eq_true, if_false]
    rw [created_participants_append_inert _ _ (write_loop_calls _ _ _ _),
      enabled_user_data_append_inert _ _ _ (write_loop_calls _ _ _ _)]
    exact ⟨hc, he⟩
  · simp only [if_true]
    exact ⟨hc, he⟩

/-! ## Claims about invalid discovery records -/

/-- C10: each of the three listeners produces on a batch the effects it produces
on the batch without its invalid records; an invalid record, whatever its data,
contributes nothing, and the records before and after it are processed as if it
were not there. -/
theorem invalid_records_skipped (P : Platform) (local_hash : Nat)
    (members : List (Sample ParticipantBuiltinTopicData))
    (readers writers : List (Sample EndpointBuiltinTopicData)) :
    (Publisher.ParticipantListener.on_data_available P local_hash members =
        Publisher.ParticipantListener.on_data_available P local_hash
          (members.filter (fun s => s.info.valid)) ∧
      Publisher.SubscriberListener.on_data_available readers =
        Publisher.SubscriberListener.on_data_available
          (readers.filter (fun s => s.info.valid)) ∧
      Subscriber.PublisherListener.on_data_available writers =
        Subscriber.PublisherListener.on_data_available
          (writers.filter (fun s => s.info.valid))) ∧
    (∀ (s : Sample ParticipantBuiltinTopicData) (post : List (Sample ParticipantBuiltinTopicData)),
      s.info.valid = false →
        Publisher.ParticipantListener.on_data_available P local_hash [s] = [] ∧
        Publisher.ParticipantListener.on_data_available P local_hash (members ++ s :: post) =
          Publisher.ParticipantListener.on_data_available P local_hash members ++
            Publisher.ParticipantListener.on_data_available P local_hash post) ∧
    (∀ (s : Sample EndpointBuiltinTopicData) (post : List (Sample EndpointBuiltinTopicData)),
      s.info.valid = false →
        Publisher.SubscriberListener.on_data_available [s] = [] ∧
        Publisher.SubscriberListener.on_data_available (readers ++ s :: post) =
          Publisher.SubscriberListener.on_data_available readers ++
            Publisher.SubscriberListener.on_data_available post) ∧
    (∀ (s : Sample EndpointBuiltinTopicData) (post : List (Sample EndpointBuiltinTopicData)),
      s.info.valid = false →
        Subscriber.PublisherListener.on_data_available [s] = [] ∧
        Subscriber.PublisherListener.on_data_available (writers ++ s :: post) =
          Subscriber.PublisherListener.on_data_available writers ++
            Subscriber.PublisherListener.on_data_available post) := by
  refine ⟨⟨?_, ?_, ?_⟩, ?_, ?_, ?_⟩
  · induction members with
    | nil => rfl
    | cons s rest ih =>
      cases hv : s.info.valid
      · rw [List.filter_cons_of_neg (by simp [hv]), ← ih]
        simp [Publisher.ParticipantListener.on_data_available,
          Publisher.ParticipantListener.process_sample, hv]
      · rw [List.filter_cons_of_pos (by simp [hv])]
        simp only [Publisher.ParticipantListener.on_data_available, ← ih]
  · induction readers with
    | nil => rfl
    | cons s rest ih =>
      cases hv : s.info.valid
      · rw [List.filter_cons_of_neg (by simp [hv]), ← ih]
        simp [Publisher.SubscriberListener.on_data_available, hv]
      · rw [List.filter_cons_of_pos (by simp [hv])]
        simp only [Publisher.SubscriberListener.on_data_available, ← ih]
  · induction writers with
    | nil => rfl
    | cons s rest ih =>
      cases hv : s.info.valid
      · rw [List.filter_cons_of_neg (by simp [hv]), ← ih]
        simp [Subscriber.PublisherListener.on_data_available, hv]
      · rw [List.filter_cons_of_pos (by simp [hv])]
        simp only [Subscriber.PublisherListener.on_data_available, ← ih]
  · intro s post hv
    have h1 : Publisher.ParticipantListener.on_data_available P local_hash [s] = [] := by
      simp [Publisher.ParticipantListener.on_data_available,
        Publisher.ParticipantListener.process_sample, hv]
    refine ⟨h1, ?_⟩
    rw [participant_listener_append]
    simp [Publisher.ParticipantListener.on_data_available,
      Publisher.ParticipantListener.process_sample, hv]
  · intro s post hv
    have h1 : Publisher.SubscriberListener.on_data_available [s] = [] := by
      simp [Publisher.SubscriberListener.on_data_available, hv]
    refine ⟨h1, ?_⟩
    rw [subscriber_listener_append]
    simp [Publisher.SubscriberListener.on_data_available, hv]
  · intro s post hv
    have h1 : Subscriber.PublisherListener.on_data_available [s] = [] := by
      simp [Subscriber.PublisherListener.on_data_available, hv]
    refine ⟨h1, ?_⟩
    rw [publisher_listener_append]
    simp [Subscriber.PublisherListener.on_data_available, hv]

/-- Witness of C10: an invalid participant record carrying a wrong fingerprint,
between two valid ones, causes no effect and does not stop the batch. -/
theorem invalid_records_skipped_witness :
    Publisher.ParticipantListener.on_data_available ⟨DataModel.ILP32, false⟩ 258
        [⟨⟨false, 8, InstanceState.not_alive_disposed⟩, ⟨⟨1, 2, 4⟩, [9, 9, 9, 9]⟩⟩] = [] ∧
    Publisher.ParticipantListener.on_data_available ⟨DataModel.ILP32, false⟩ 258
        ([⟨⟨true, 7, InstanceState.alive⟩, ⟨⟨1, 2, 3⟩, [2, 1, 0, 0]⟩⟩] ++
          ⟨⟨false, 8, InstanceState.not_alive_disposed⟩, ⟨⟨1, 2, 4⟩, [9, 9, 9, 9]⟩⟩ ::
          [⟨⟨true, 9, InstanceState.alive⟩, ⟨⟨1, 2, 5⟩, []⟩⟩]) =
      Publisher.ParticipantListener.on_data_available ⟨DataModel.ILP32, false⟩ 258
          [⟨⟨true, 7, InstanceState.alive⟩, ⟨⟨1, 2, 3⟩, [2, 1, 0, 0]⟩⟩] ++
        Publisher.ParticipantListener.on_data_available ⟨DataModel.ILP32, false⟩ 258
          [⟨⟨true, 9, InstanceState.alive⟩, ⟨⟨1, 2, 5⟩, []⟩⟩] :=
  (invalid_records_skipped ⟨DataModel.ILP32, false⟩ 258
    [⟨⟨true, 7, InstanceState.alive⟩, ⟨⟨1, 2, 3⟩, [2, 1, 0, 0]⟩⟩] [] []).2.1
    ⟨⟨false, 8, InstanceState.not_alive_disposed⟩, ⟨⟨1, 2, 4⟩, [9, 9, 9, 9]⟩⟩
    [⟨⟨true, 9, InstanceState.alive⟩, ⟨⟨1, 2, 5⟩, []⟩⟩] rfl

/-! ## Claims about the dispatch loop -/

/-- One turn of the loop when its condition holds. -/
theorem dispatch_loop_step {T : Type} (sample_count : Nat) (shutdown_requested : Nat → Bool)
    (wakeup : Nat → Option (List (Sample T))) (fuel i : Nat)
    (h : loop_guard sample_count shutdown_requested wakeup i = true) :
    Subscriber.dispatch_loop sample_count shutdown_requested wakeup (fuel + 1) i
        (samples_read_at wakeup i) =
      ⟨i :: (Subscriber.dispatch_loop sample_count shutdown_requested wakeup fuel (i + 1)
          (samples_read_at wakeup (i + 1))).dispatched,
       (Subscriber.handle_wakeup (wakeup i)).2 ++
        (Subscriber.dispatch_loop sample_count shutdown_requested wakeup fuel (i + 1)
          (samples_read_at wakeup (i + 1))).out,
       (Subscriber.dispatch_loop sample_count shutdown_requested wakeup fuel (i + 1)
          (samples_read_at wakeup (i + 1))).samples_read,
       (Subscriber.dispatch_loop sample_count shutdown_requested wakeup fuel (i + 1)
          (samples_read_at wakeup (i + 1))).exited_at⟩ := by
  unfold loop_guard at h
  rw [Subscriber.dispatch_loop, if_pos h]
  rfl

/-- The loop ends where its condition fails. -/
theorem dispatch_loop_exit {T : Type} (sample_count : Nat) (shutdown_requested : Nat → Bool)
    (wakeup : Nat → Option (List (Sample T))) (fuel i : Nat)
    (h : loop_guard sample_count shutdown_requested wakeup i = false) :
    Subscriber.dispatch_loop sample_count shutdown_requested wakeup (fuel + 1) i
        (samples_read_at wakeup i) = ⟨[], [], samples_read_at wakeup i, some i⟩ := by
  unfold loop_guard at h
  rw [Subscriber.dispatch_loop, if_neg (by simp [h])]

/-- The dispatches of a run: those evaluations, within the fuel, up to which the
loop condition held throughout. -/
theorem mem_dispatched_iff {T : Type} (sample_count : Nat) (shutdown_requested : Nat → Bool)
    (wakeup : Nat → Option (List (Sample T))) (fuel i m : Nat) :
    m ∈ (Subscriber.dispatch_loop sample_count shutdown_requested wakeup fuel i
        (samples_read_at wakeup i)).dispatched ↔
      i ≤ m ∧ m < i + fuel ∧
        ∀ j, i ≤ j → j ≤ m → loop_guard sample_count shutdown_requested wakeup j = true := by
  induction fuel generalizing i with
  | zero =>
    simp only [Subscriber.dispatch_loop, List.not_mem_nil, false_iff]
    omega
  | succ fuel ih =>
    cases hg : loop_guard sample_count shutdown_requested wakeup i
    · rw [dispatch_loop_exit _ _ _ _ _ hg]
      simp only [List.not_mem_nil, false_iff]
      rintro ⟨him, _, hall⟩
      have := hall i (Nat.le_refl i) him
      rw [hg] at this
      exact Bool.false_ne_true this
    · rw [dispatch_loop_step _ _ _ _ _ hg]
      simp only [List.mem_cons, ih (i + 1)]
      constructor
      · rintro (h | ⟨h1, h2, h3⟩)
        · subst h
          refine ⟨Nat.le_refl _, by omega, ?_⟩
          intro j hj1 hj2
          have : j = m := Nat.le_antisymm hj2 hj1
          rw [this]
          exact hg
        · refine ⟨by omega, by omega, ?_⟩
          intro j hj1 hj2
          by_cases hji : j = i
          · rw [hji]
            exact hg
          · exact h3 j (by omega) hj2
      · rintro ⟨h1, h2, h3⟩
        by_cases hmi : m = i
        · exact Or.inl hmi
        · exact Or.inr ⟨by omega, by omega, fun j hj1 hj2 => h3 j (by omega) hj2⟩

/-- The loop exits at the first evaluation at which its condition fails, having
dispatched once after each evaluation before it. -/
theorem dispatch_loop_first_stop {T : Type} (sample_count : Nat)
    (shutdown_requested : Nat → Bool) (wakeup : Nat → Option (List (Sample T)))
    (fuel i k : Nat) (hik : i ≤ k) (hfuel : k < i + fuel)
    (hrun : ∀ j, i ≤ j → j < k → loop_guard sample_count shutdown_requested wakeup j = true)
    (hstop : loop_guard sample_count shutdown_requested wakeup k = false) :
    (Subscriber.dispatch_loop sample_count shutdown_requested wakeup fuel i
        (samples_read_at wakeup i)).exited_at = some k ∧
    (Subscriber.dispatch_loop sample_count shutdown_requested wakeup fuel i
        (samples_read_at wakeup i)).dispatched = List.range' i (k - i) ∧
    (Subscriber.dispatch_loop sample_count shutdown_requested wakeup fuel i
        (samples_read_at wakeup i)).samples_read = samples_read_at wakeup k := by
  induction fuel generalizing i with
  | zero => omega
  | succ fuel ih =>
    by_cases hk : i = k
    · subst hk
      rw [dispatch_loop_exit _ _ _ _ _ hstop]
      simp
    · have hg := hrun i (Nat.le_refl i) (by omega)
      rw [dispatch_loop_step _ _ _ _ _ hg]
      obtain ⟨h1, h2, h3⟩ := ih (i + 1) (by omega) (by omega)
        (fun j hj1 hj2 => hrun j (by omega) hj2)
      refine ⟨h1, ?_, h3⟩
      simp only [h2]
      have hki : k - i = (k - (i + 1)) + 1 := by omega
      rw [hki, List.range'_succ]

/-- The loop condition, spelled out. -/
theorem loop_guard_iff {T : Type} (sample_count : Nat) (shutdown_requested : Nat → Bool)
    (wakeup : Nat → Option (List (Sample T))) (j : Nat) :
    loop_guard sample_count shutdown_requested wakeup j = true ↔
      shutdown_requested j = false ∧ samples_read_at wakeup j < sample_count := by
  unfold loop_guard
  cases shutdown_requested j <;> simp

/-- C9: in a run of the subscriber's loop, whatever the shutdown flag shows and
whatever the dispatches deliver, a dispatch follows the `m`-th evaluation of the
loop condition iff at every evaluation up to and including it shutdown was not
requested and `samples_read < sample_count`; at the first evaluation `k` at which
shutdown is requested or `samples_read` has reached `sample_count` the loop exits
(given fuel beyond `k`), having dispatched after the evaluations `0 .. k-1` and
at no later one; with `sample_count = 0` it never dispatches. -/
theorem dispatch_loop_stop_condition {T : Type} (sample_count : Nat)
    (shutdown_requested : Nat → Bool) (wakeup : Nat → Option (List (Sample T)))
    (fuel : Nat) :
    (∀ m, m < fuel →
      (m ∈ (Subscriber.dispatch_loop sample_count shutdown_requested wakeup fuel 0
          0).dispatched ↔
        ∀ j, j ≤ m →
          shutdown_requested j = false ∧ samples_read_at wakeup j < sample_count)) ∧
    (∀ k, k < fuel →
      (shutdown_requested k = true ∨ sample_count ≤ samples_read_at wakeup k) →
      (∀ j, j < k →
        shutdown_requested j = false ∧ samples_read_at wakeup j < sample_count) →
      (Subscriber.dispatch_loop sample_count shutdown_requested wakeup fuel 0 0).exited_at =
          some k ∧
        (Subscriber.dispatch_loop sample_count shutdown_requested wakeup fuel 0
          0).dispatched = List.range k ∧
        (Subscriber.dispatch_loop sample_count shutdown_requested wakeup fuel 0
          0).samples_read = samples_read_at wakeup k ∧
        ∀ m, k ≤ m →
          m ∉ (Subscriber.dispatch_loop sample_count shutdown_requested wakeup fuel 0
            0).dispatched) ∧
    (sample_count = 0 →
      (Subscriber.dispatch_loop sample_count shutdown_requested wakeup fuel 0
        0).dispatched = []) := by
  have hstart : samples_read_at wakeup 0 = 0 := rfl
  have hfirst : ∀ k, k < fuel →
      (shutdown_requested k = true ∨ sample_count ≤ samples_read_at wakeup k) →
      (∀ j, j < k →
        shutdown_requested j = false ∧ samples_read_at wakeup j < sample_count) →
      (Subscriber.dispatch_loop sample_count shutdown_requested wakeup fuel 0 0).exited_at =
          some k ∧
        (Subscriber.dispatch_loop sample_count shutdown_requested wakeup fuel 0
          0).dispatched = List.range k ∧
        (Subscriber.dispatch_loop sample_count shutdown_requested wakeup fuel 0
          0).samples_read = samples_read_at wakeup k := by
    intro k hk hstop hrun
    have hg : loop_guard sample_count shutdown_requested wakeup k = false := by
      cases hgk : loop_guard sample_count shutdown_requested wakeup k
      · rfl
      · have := (loop_guard_iff _ _ _ _).mp hgk
        rcases hstop with h | h
        · rw [this.1] at h
          exact absurd h Bool.false_ne_true
        · omega
    have h := dispatch_loop_first_stop sample_count shutdown_requested wakeup fuel 0 k
      (Nat.zero_le k) (by omega)
      (fun j _ hj => (loop_guard_iff _ _ _ _).mpr (hrun j hj)) hg
    rw [hstart] at h
    refine ⟨h.1, ?_, h.2.2⟩
    rw [h.2.1, List.range_eq_range', Nat.sub_zero]
  refine ⟨?_, ?_, ?_⟩
  · intro m hm
    have h := mem_dispatched_iff sample_count shutdown_requested wakeup fuel 0 m
    rw [hstart] at h
    rw [h]
    constructor
    · rintro ⟨_, _, hall⟩ j hj
      exact (loop_guard_iff _ _ _ _).mp (hall j (Nat.zero_le j) hj)
    · intro hall
      exact ⟨Nat.zero_le m, by omega,
        fun j _ hj => (loop_guard_iff _ _ _ _).mpr (hall j hj)⟩
  · intro k hk hstop hrun
    obtain ⟨h1, h2, h3⟩ := hfirst k hk hstop hrun
    refine ⟨h1, h2, h3, ?_⟩
    intro m hkm hmem
    rw [h2, List.mem_range] at hmem
    omega
  · intro hzero
    cases fuel with
    | zero => rfl
    | succ fuel =>
      exact (hfirst 0 (Nat.succ_pos fuel) (Or.inr (by omega))
        (fun j hj => absurd hj (Nat.not_lt_zero j))).2.1

/-- Witness of C9: with `sample_count = 3`, batches of two valid samples at the
first two dispatches and no shutdown request, the target is reached at the third
evaluation of the condition: the loop exits there after two dispatches. -/
theorem dispatch_loop_stop_condition_witness :
    (Subscriber.dispatch_loop 3 (fun _ => false)
        (fun _ => some [(⟨⟨true, 1, InstanceState.alive⟩, 0⟩ : Sample Nat),
          ⟨⟨false, 1, InstanceState.not_alive_disposed⟩, 0⟩,
          ⟨⟨true, 1, InstanceState.alive⟩, 0⟩]) 5 0 0).exited_at = some 2 ∧
      (Subscriber.dispatch_loop 3 (fun _ => false)
        (fun _ => some [(⟨⟨true, 1, InstanceState.alive⟩, 0⟩ : Sample Nat),
          ⟨⟨false, 1, InstanceState.not_alive_disposed⟩, 0⟩,
          ⟨⟨true, 1, InstanceState.alive⟩, 0⟩]) 5 0 0).dispatched = List.range 2 :=
  have h := (dispatch_loop_stop_condition 3 (fun _ => false)
    (fun _ => some [(⟨⟨true, 1, InstanceState.alive⟩, 0⟩ : Sample Nat),
      ⟨⟨false, 1, InstanceState.not_alive_disposed⟩, 0⟩,
      ⟨⟨true, 1, InstanceState.alive⟩, 0⟩]) 5).2.1 2 (by decide)
    (Or.inr (by decide)) (by decide)
  ⟨h.1, h.2.1⟩
